import Mathlib

/-!
Verification of the event-driven metrics-aggregation pipeline of the
flower-shop storefront repository: the analytics-service Kafka consumer
(src/services/analytics-service/app/kafka_consumer.py), its read-side
queries (app/routers/analytics.py), and the producer-side event emitters
of the catalog and order services (app/kafka_producer.py in each).

Modelling conventions:
- instants (Python datetime values) are integers counting microseconds,
  matching Python datetime resolution; a calendar date is an integer day
  number, and day d spans [d * usPerDay, (d+1) * usPerDay).
- Python dict payloads are structures of optional fields; a required key
  access (data[k]) on a missing key is a KeyError, which the consumer's
  per-message try/except turns into a dropped message with the enclosing
  database transaction rolled back, so a handler is a function returning
  Option Store (none = exception, state unchanged).
- Float amounts are modelled as rationals.
- package state mutated by the database session is passed explicitly as a
  Store value; the session.begin transaction makes each handler atomic.
-/

namespace TgFlowers

/-- Row of the product_views table (app/models.py, ProductView). -/
structure ViewRecord where
  product_id : Int
  user_id : Option Int
  viewed_at : Int
deriving DecidableEq, Repr

/-- Row of the order_metrics table (app/models.py, OrderMetric). -/
structure OrderMetricRec where
  order_id : Int
  user_id : Int
  total_amount : Rat
  items_count : Int
  delivery_type : String
  created_at : Int
deriving DecidableEq, Repr

/-- Row of the popular_products table (app/models.py, PopularProduct);
product_id carries a unique constraint. -/
structure PopularProductRow where
  product_id : Int
  product_name : String
  view_count : Int
  order_count : Int
  last_updated : Int
deriving DecidableEq, Repr

/-- The aggregate store owned by the analytics service: the three tables. -/
structure Store where
  product_views : List ViewRecord
  order_metrics : List OrderMetricRec
  popular_products : List PopularProductRow
deriving DecidableEq, Repr

/-- One line item of an order-created payload; every field is read with a
dict access that may fail (item access raises KeyError when product_id is
missing, .get returns a default for the others). -/
structure OrderItem where
  product_id : Option Int
  product_name : Option String
  quantity : Option Int
deriving DecidableEq, Repr

/-- A consumed JSON payload as a dict of optional fields, covering both the
product-view shape and the order-created shape. The fields timestamp and
created_at are the payload-carried business times, which the handlers never
read. -/
structure EventDict where
  event_type : Option String
  product_id : Option Int
  product_name : Option String
  user_id : Option Int
  timestamp : Option Int
  order_id : Option Int
  total_amount : Option Rat
  items_count : Option Int
  delivery_type : Option String
  items : Option (List OrderItem)
  created_at : Option Int
deriving DecidableEq, Repr

/-- A Kafka message as seen by the consumer loop: its topic and its
deserialized payload. -/
structure Message where
  topic : String
  value : EventDict
deriving DecidableEq, Repr

/-- The rows of a popular_products list holding a given product_id. -/
def pidRows (rows : List PopularProductRow) (pid : Int) : List PopularProductRow :=
  rows.filter (fun r => r.product_id == pid)

/-- The select-then-update-or-insert block of _handle_product_view: look up
PopularProduct by product_id; if present increment view_count and refresh
last_updated, else insert a fresh row with view_count 1, order_count 0. -/
def upsertViewPopular (now pid : Int) (name : String)
    (rows : List PopularProductRow) : List PopularProductRow :=
  match rows.find? (fun r => r.product_id == pid) with
  | some _ =>
      rows.map (fun r =>
        if r.product_id == pid then
          { r with view_count := r.view_count + 1, last_updated := now }
        else r)
  | none =>
      rows ++ [{ product_id := pid, product_name := name, view_count := 1,
                 order_count := 0, last_updated := now }]

/-- The per-item select-then-update-or-insert block of _handle_order_created:
increment order_count by one, or insert a fresh row with view_count 0,
order_count 1. -/
def upsertOrderPopular (now pid : Int) (name : String)
    (rows : List PopularProductRow) : List PopularProductRow :=
  match rows.find? (fun r => r.product_id == pid) with
  | some _ =>
      rows.map (fun r =>
        if r.product_id == pid then
          { r with order_count := r.order_count + 1, last_updated := now }
        else r)
  | none =>
      rows ++ [{ product_id := pid, product_name := name, view_count := 0,
                 order_count := 1, last_updated := now }]

/-- Handler _handle_product_view: insert a ProductView fact row (stamped with
the consumer clock, now) and upsert PopularProduct. A missing product_id key
raises, rolling the transaction back. -/
def handleProductView (now : Int) (data : EventDict) (s : Store) : Option Store :=
  match data.product_id with
  | none => none
  | some pid =>
      some { s with
        product_views := s.product_views ++
          [{ product_id := pid, user_id := data.user_id, viewed_at := now }],
        popular_products :=
          upsertViewPopular now pid (data.product_name.getD "Unknown")
            s.popular_products }

/-- One iteration of the items loop in _handle_order_created. -/
def applyOrderItem (now : Int) (rows : List PopularProductRow)
    (item : OrderItem) : Option (List PopularProductRow) :=
  match item.product_id with
  | none => none
  | some pid =>
      some (upsertOrderPopular now pid (item.product_name.getD "Unknown") rows)

/-- Handler _handle_order_created: insert an OrderMetric fact row (stamped
with the consumer clock) and upsert PopularProduct once per line item; any
missing required key raises, rolling the whole transaction back. -/
def handleOrderCreated (now : Int) (data : EventDict) (s : Store) : Option Store :=
  match data.order_id, data.user_id, data.total_amount, data.items_count with
  | some oid, some uid, some amt, some cnt =>
      match (data.items.getD []).foldlM (applyOrderItem now) s.popular_products with
      | none => none
      | some rows =>
          some { s with
            order_metrics := s.order_metrics ++
              [{ order_id := oid, user_id := uid, total_amount := amt,
                 items_count := cnt,
                 delivery_type := data.delivery_type.getD "unknown",
                 created_at := now }],
            popular_products := rows }
  | _, _, _, _ => none

/-- Which handler the consume loop dispatches a message to. -/
inductive HandlerChoice where
  | view
  | order
  | drop
deriving DecidableEq, Repr

/-- The dispatch conditions of the consume loop (kafka_consumer.py lines
112-123): first the product-view test, then the order-created test, else the
message is dropped with a warning. etype is data.get of event_type with
default empty string. -/
def dispatch (topic etype : String) : HandlerChoice :=
  if topic == "product_views" || etype == "product_view" then .view
  else if topic == "order_events" || etype == "order_created" then .order
  else .drop

/-- Effect of one consumed message on the store: dispatch, run the chosen
handler, and on handler exception keep the previous state (the per-message
try/except logs and continues; the transaction was rolled back). -/
def processMessage (now : Int) (m : Message) (s : Store) : Store :=
  match dispatch m.topic (m.value.event_type.getD "") with
  | .view => (handleProductView now m.value s).getD s
  | .order => (handleOrderCreated now m.value s).getD s
  | .drop => s

/-- Sequential processing of a list of timestamped messages by a single
consumer instance. -/
def processAll : List (Int × Message) → Store → Store
  | [], s => s
  | (now, m) :: rest, s => processAll rest (processMessage now m s)

/-- Sequential processing of a list of timestamped view payloads directly by
the view handler (a handler exception leaves the store unchanged). -/
def runViews : List (Int × EventDict) → Store → Store
  | [], s => s
  | (now, d) :: rest, s => runViews rest ((handleProductView now d s).getD s)

/-- The items list of an order payload, defaulting to empty as in
data.get of items. -/
def itemsOf (d : EventDict) : List OrderItem :=
  d.items.getD []

/-- Number of line items of an order payload naming a given product_id;
independent of every quantity field. -/
def countPid (items : List OrderItem) (pid : Int) : Nat :=
  (items.filter (fun it => it.product_id == some pid)).length

/-- The required-field checks under which _handle_order_created commits
instead of raising: the four required top-level keys plus product_id on
every line item. -/
def orderFieldsOk (d : EventDict) : Bool :=
  d.order_id.isSome && d.user_id.isSome && d.total_amount.isSome &&
    d.items_count.isSome && (itemsOf d).all (fun it => it.product_id.isSome)

/-- Whether a consumed message successfully writes aggregate state for a
given product_id: a view-dispatched message carrying that product_id, or an
order-dispatched message whose transaction commits and whose items name it. -/
def touches (m : Message) (pid : Int) : Bool :=
  match dispatch m.topic (m.value.event_type.getD "") with
  | .view => m.value.product_id == some pid
  | .order => orderFieldsOk m.value &&
      (itemsOf m.value).any (fun it => it.product_id == some pid)
  | .drop => false

/-! Read-side query layer (app/routers/analytics.py). -/

/-- Microseconds per calendar day. -/
def usPerDay : Int := 86400000000

/-- Python datetime.combine of a date with time.min: local midnight opening
day d. -/
def dayStartUs (d : Int) : Int := d * usPerDay

/-- Python datetime.combine of a date with time.max, that is
23:59:59.999999 of day d. -/
def dayEndUs (d : Int) : Int := d * usPerDay + (usPerDay - 1)

/-- Descending view_count comparison used by the popular-by-views ORDER BY. -/
def viewGe (a b : PopularProductRow) : Prop := b.view_count ≤ a.view_count

instance : DecidableRel viewGe := fun a b =>
  inferInstanceAs (Decidable (b.view_count ≤ a.view_count))

instance : IsTotal PopularProductRow viewGe :=
  ⟨fun a b => le_total b.view_count a.view_count⟩

instance : IsTrans PopularProductRow viewGe :=
  ⟨fun _ _ _ h1 h2 => le_trans h2 h1⟩

/-- Descending order_count comparison used by the popular-by-orders ORDER BY. -/
def orderGe (a b : PopularProductRow) : Prop := b.order_count ≤ a.order_count

instance : DecidableRel orderGe := fun a b =>
  inferInstanceAs (Decidable (b.order_count ≤ a.order_count))

instance : IsTotal PopularProductRow orderGe :=
  ⟨fun a b => le_total b.order_count a.order_count⟩

instance : IsTrans PopularProductRow orderGe :=
  ⟨fun _ _ _ h1 h2 => le_trans h2 h1⟩

/-- Descending created_at comparison used by the order-metrics ORDER BY. -/
def createdGe (a b : OrderMetricRec) : Prop := b.created_at ≤ a.created_at

instance : DecidableRel createdGe := fun a b =>
  inferInstanceAs (Decidable (b.created_at ≤ a.created_at))

instance : IsTotal OrderMetricRec createdGe :=
  ⟨fun a b => le_total b.created_at a.created_at⟩

instance : IsTrans OrderMetricRec createdGe :=
  ⟨fun _ _ _ h1 h2 => le_trans h2 h1⟩

/-- The get_popular_by_views query: PopularProduct ordered by view_count
descending, limit 10. The storage engine may return any descending order; we
realise it with a stable sort. -/
def topByViews (rows : List PopularProductRow) : List PopularProductRow :=
  (List.insertionSort viewGe rows).take 10

/-- The get_popular_by_orders query: PopularProduct ordered by order_count
descending, limit 10. -/
def topByOrders (rows : List PopularProductRow) : List PopularProductRow :=
  (List.insertionSort orderGe rows).take 10

/-- Python round with 2 digits on the average: nearest multiple of 1/100,
ties to the even integer multiple (banker rounding). -/
def roundHalfEven (q : Rat) : Int :=
  let f := q.floor
  let frac := q - f
  if frac < (1 : Rat) / 2 then f
  else if (1 : Rat) / 2 < frac then f + 1
  else if f % 2 = 0 then f else f + 1

/-- Round a rational to 2 decimal places, ties to even. -/
def round2 (q : Rat) : Rat := (roundHalfEven (q * 100) : Rat) / 100

/-- Sum of total_amount over the order_metrics table, with the empty sum
coalesced to 0 as in func.coalesce(func.sum(...), 0.0). -/
def totalRevenue (s : Store) : Rat :=
  (s.order_metrics.map (fun r => r.total_amount)).sum

/-- Response body of the get_dashboard endpoint. -/
structure DashboardMetrics where
  total_orders : Nat
  total_revenue : Rat
  avg_order_value : Rat
  orders_today : Nat
  popular_by_views : List PopularProductRow
  popular_by_orders : List PopularProductRow
deriving DecidableEq, Repr

/-- The get_dashboard endpoint; todayStart is datetime.combine of
date.today with time.min evaluated at request time. -/
def getDashboard (todayStart : Int) (s : Store) : DashboardMetrics :=
  let total_orders := s.order_metrics.length
  let total_revenue := totalRevenue s
  let avg := if total_orders > 0 then total_revenue / (total_orders : Rat) else 0
  { total_orders := total_orders,
    total_revenue := total_revenue,
    avg_order_value := round2 avg,
    orders_today :=
      (s.order_metrics.filter (fun r => decide (todayStart ≤ r.created_at))).length,
    popular_by_views := topByViews s.popular_products,
    popular_by_orders := topByOrders s.popular_products }

/-- The get_order_metrics endpoint: order_metrics descending by created_at,
with an optional lower bound at from 00:00:00 and an optional upper bound at
to 23:59:59.999999 (datetime.combine with time.max). -/
def getOrderMetrics (fromDate toDate : Option Int) (s : Store) : List OrderMetricRec :=
  let base := List.insertionSort createdGe s.order_metrics
  let afterFrom :=
    match fromDate with
    | some d => base.filter (fun r => decide (dayStartUs d ≤ r.created_at))
    | none => base
  match toDate with
  | some d => afterFrom.filter (fun r => decide (r.created_at ≤ dayEndUs d))
  | none => afterFrom

/-- The inclusive-window predicate the order-metrics listing filters by. -/
def inWindow (fromDate toDate : Option Int) (r : OrderMetricRec) : Bool :=
  (match fromDate with
   | some d => decide (dayStartUs d ≤ r.created_at)
   | none => true) &&
  (match toDate with
   | some d => decide (r.created_at ≤ dayEndUs d)
   | none => true)

/-! Producer-side event emitters (catalog-service and order-service
app/kafka_producer.py). The connection handle is Option Unit: some =
a live AIOKafkaProducer, none = degraded. The outcome of each awaited
transport call is an environment-chosen TransportResult. An emitter
operation returns the new handle state paired with Except: an error value
models a Python exception propagating to the caller. -/

/-- Outcome of an awaited transport call on the underlying producer. -/
inductive TransportResult where
  | ok
  | err (msg : String)
deriving DecidableEq, Repr

/-- Observable effect of a send_event call. -/
inductive SendOutcome where
  | dropped
  | published
  | sendFailed (msg : String)
deriving DecidableEq, Repr

/-- Observable effect of a stop call. -/
inductive StopOutcome where
  | noop
  | stopped
  | stopWarned (msg : String)
deriving DecidableEq, Repr

/-- KafkaProducerWrapper.send_event of the catalog service: silently skip
when not connected; otherwise await send_and_wait and catch any exception,
logging a warning. -/
def catalogSendEvent (producer : Option Unit) (publish : TransportResult) :
    Except String SendOutcome :=
  match producer with
  | none => .ok .dropped
  | some _ =>
      match publish with
      | .ok => .ok .published
      | .err m => .ok (.sendFailed m)

/-- send_event of the order service: warn and drop when the module-level
producer is not initialised; otherwise await send_and_wait and catch any
exception. -/
def orderSendEvent (producer : Option Unit) (publish : TransportResult) :
    Except String SendOutcome :=
  match producer with
  | none => .ok .dropped
  | some _ =>
      match publish with
      | .ok => .ok .published
      | .err m => .ok (.sendFailed m)

/-- KafkaProducerWrapper.stop of the catalog service: when connected, await
the underlying stop inside try/except (warning on failure), and clear the
handle in the finally block either way. -/
def catalogStop (producer : Option Unit) (closeResult : TransportResult) :
    Option Unit × Except String StopOutcome :=
  match producer with
  | none => (none, .ok .noop)
  | some _ =>
      match closeResult with
      | .ok => (none, .ok .stopped)
      | .err m => (none, .ok (.stopWarned m))

/-- stop_kafka_producer of the order service: when the module-level producer
is set, await its stop with no surrounding try/except, then clear the handle;
an exception from the underlying stop propagates and leaves the handle set. -/
def orderStop (producer : Option Unit) (closeResult : TransportResult) :
    Option Unit × Except String StopOutcome :=
  match producer with
  | none => (none, .ok .noop)
  | some _ =>
      match closeResult with
      | .ok => (none, .ok .stopped)
      | .err m => (producer, .error m)

/-! Statement devices and concrete inputs used by theorems below. -/

/-- Strictly-descending-by-view_count test on a row list. -/
def strictViewDesc : List PopularProductRow → Bool
  | [] => true
  | [_] => true
  | a :: b :: rest => decide (b.view_count < a.view_count) && strictViewDesc (b :: rest)

/-- A payload dict with every key absent. -/
def emptyDict : EventDict :=
  { event_type := none, product_id := none, product_name := none,
    user_id := none, timestamp := none, order_id := none, total_amount := none,
    items_count := none, delivery_type := none, items := none, created_at := none }

/-- The empty aggregate store. -/
def store0 : Store := { product_views := [], order_metrics := [], popular_products := [] }

/-- A concrete product-view payload for product 1, carrying a payload
timestamp the handler must ignore. -/
def dictView1 : EventDict :=
  { emptyDict with
    event_type := some "product_view", product_id := some 1,
    product_name := some "Rose", user_id := some 42, timestamp := some 111 }

/-- A concrete order-created payload whose single line item names product 1
with quantity 5. -/
def dictOrder1 : EventDict :=
  { emptyDict with
    event_type := some "order_created", order_id := some 7,
    user_id := some 2, total_amount := some 10, items_count := some 1,
    delivery_type := some "courier",
    items := some [{ product_id := some 1, product_name := some "Rose",
                     quantity := some 5 }],
    created_at := some 222 }

/-- Twelve popular-product rows with distinct product_ids and equal
view_counts. -/
def rows12 : List PopularProductRow :=
  (List.range 12).map (fun i =>
    { product_id := (i : Int) + 1, product_name := "P", view_count := 0,
      order_count := 0, last_updated := 0 })

/-- An order-metric record stamped at 23:59:59.000001 plus 999998
microseconds shy of midnight, that is 23:59:59.000001 of day 0: strictly
after 23:59:59 but inside day 0. -/
def recLate : OrderMetricRec :=
  { order_id := 1, user_id := 2, total_amount := 0, items_count := 1,
    delivery_type := "courier", created_at := 86399000001 }

/-- A store holding only recLate. -/
def storeLate : Store :=
  { product_views := [], order_metrics := [recLate], popular_products := [] }

/-- A store whose popular_products table holds one untouched row for
product 1. -/
def storeP1 : Store :=
  { product_views := [], order_metrics := [],
    popular_products := [{ product_id := 1, product_name := "Rose",
                           view_count := 0, order_count := 0,
                           last_updated := 0 }] }

/-- The outcome of processing dictOrder1 at time 30 against storeP1. -/
def s2ex : Store := (handleOrderCreated 30 dictOrder1 storeP1).getD store0

/-- A payload carrying both the product-view keys and the order-created
keys, together with payload business times. -/
def dictFull : EventDict :=
  { event_type := some "product_view", product_id := some 1,
    product_name := some "Rose", user_id := some 42, timestamp := some 111,
    order_id := some 7, total_amount := some 10, items_count := some 1,
    delivery_type := some "courier",
    items := some [{ product_id := some 1, product_name := some "Rose",
                     quantity := some 5 }],
    created_at := some 222 }

/-- The outcome of the view handler on dictFull at time 5. -/
def vs2 : Store := (handleProductView 5 dictFull store0).getD store0

/-- The outcome of the order handler on dictFull at time 5. -/
def os2 : Store := (handleOrderCreated 5 dictFull store0).getD store0

/-- A two-message sequence: a product view for product 1 followed by an
order naming product 1. -/
def msgsEx : List (Int × Message) :=
  [(10, { topic := "product_views", value := dictView1 }),
   (20, { topic := "order_events", value := dictOrder1 })]

/-! Basic lemmas about pidRows and the two upsert blocks. -/

theorem find?_none_iff_pidRows_nil (rows : List PopularProductRow) (pid : Int) :
    rows.find? (fun r => r.product_id == pid) = none ↔ pidRows rows pid = [] := by
  simp [pidRows, List.find?_eq_none, List.filter_eq_nil_iff]

theorem pidRows_map_upd (pid : Int) (f : PopularProductRow → PopularProductRow)
    (hf : ∀ r, (f r).product_id = r.product_id) (rows : List PopularProductRow) :
    pidRows (rows.map (fun r => if r.product_id == pid then f r else r)) pid
      = (pidRows rows pid).map f := by
  unfold pidRows
  rw [List.map_filter]
  have h1 : rows.filter
        ((fun r => r.product_id == pid) ∘ fun r => if r.product_id == pid then f r else r)
      = rows.filter (fun r => r.product_id == pid) := by
    apply List.filter_congr
    intro a _
    by_cases h : a.product_id = pid <;> simp [h, hf a]
  rw [h1]
  apply List.map_congr_left
  intro a ha
  have : a.product_id = pid := by simpa using (List.mem_filter.mp ha).2
  simp [this]

theorem pidRows_map_upd_ne (pid q : Int) (hq : q ≠ pid)
    (f : PopularProductRow → PopularProductRow)
    (hf : ∀ r, (f r).product_id = r.product_id) (rows : List PopularProductRow) :
    pidRows (rows.map (fun r => if r.product_id == pid then f r else r)) q
      = pidRows rows q := by
  have hqp : pid ≠ q := fun hc => hq hc.symm
  unfold pidRows
  rw [List.map_filter]
  have h1 : rows.filter
        ((fun r => r.product_id == q) ∘ fun r => if r.product_id == pid then f r else r)
      = rows.filter (fun r => r.product_id == q) := by
    apply List.filter_congr
    intro a _
    by_cases h : a.product_id = pid <;> simp [h, hf a, hqp]
  rw [h1]
  conv_rhs => rw [← List.map_id (rows.filter (fun r => r.product_id == q))]
  apply List.map_congr_left
  intro a ha
  have h2 : a.product_id = q := by simpa using (List.mem_filter.mp ha).2
  have h3 : ¬ a.product_id = pid := fun hc => hqp (hc.symm.trans h2)
  simp [h3]

theorem pidRows_append_single (rows : List PopularProductRow)
    (r : PopularProductRow) (pid : Int) :
    pidRows (rows ++ [r]) pid
      = pidRows rows pid ++ (if r.product_id = pid then [r] else []) := by
  by_cases h : r.product_id = pid <;>
    simp [pidRows, List.filter_append, List.filter_cons, h]

theorem upsertView_insert (now pid : Int) (name : String)
    (rows : List PopularProductRow) (h : pidRows rows pid = []) :
    upsertViewPopular now pid name rows
      = rows ++ [{ product_id := pid, product_name := name, view_count := 1,
                   order_count := 0, last_updated := now }] := by
  unfold upsertViewPopular
  rw [(find?_none_iff_pidRows_nil rows pid).mpr h]

theorem pidRows_upsertView_nil (now pid : Int) (name : String)
    (rows : List PopularProductRow) (h : pidRows rows pid = []) :
    pidRows (upsertViewPopular now pid name rows) pid
      = [{ product_id := pid, product_name := name, view_count := 1,
           order_count := 0, last_updated := now }] := by
  rw [upsertView_insert now pid name rows h, pidRows_append_single, h]
  simp

theorem pidRows_upsertView_upd (now pid : Int) (name : String)
    (rows : List PopularProductRow) (h : pidRows rows pid ≠ []) :
    pidRows (upsertViewPopular now pid name rows) pid
      = (pidRows rows pid).map
          (fun r => { r with view_count := r.view_count + 1, last_updated := now }) := by
  unfold upsertViewPopular
  obtain ⟨x, hx⟩ : ∃ x, rows.find? (fun r => r.product_id == pid) = some x := by
    cases hfind : rows.find? (fun r => r.product_id == pid) with
    | none => exact absurd ((find?_none_iff_pidRows_nil rows pid).mp hfind) h
    | some x => exact ⟨x, rfl⟩
  rw [hx]
  exact pidRows_map_upd pid
    (fun r => { r with view_count := r.view_count + 1, last_updated := now })
    (fun r => rfl) rows

theorem pidRows_upsertView_ne (now pid : Int) (name : String)
    (rows : List PopularProductRow) (q : Int) (hq : q ≠ pid) :
    pidRows (upsertViewPopular now pid name rows) q = pidRows rows q := by
  unfold upsertViewPopular
  cases hfind : rows.find? (fun r => r.product_id == pid) with
  | some x =>
      exact pidRows_map_upd_ne pid q hq
        (fun r => { r with view_count := r.view_count + 1, last_updated := now })
        (fun r => rfl) rows
  | none =>
      rw [pidRows_append_single]
      simp [Ne.symm hq]

theorem ids_upsertView (now pid : Int) (name : String)
    (rows : List PopularProductRow) :
    (upsertViewPopular now pid name rows).map (fun r => r.product_id)
        = rows.map (fun r => r.product_id)
      ∨ ((upsertViewPopular now pid name rows).map (fun r => r.product_id)
          = rows.map (fun r => r.product_id) ++ [pid] ∧ pidRows rows pid = []) := by
  unfold upsertViewPopular
  cases hfind : rows.find? (fun r => r.product_id == pid) with
  | some x =>
      left
      rw [List.map_map]
      apply List.map_congr_left
      intro a _
      by_cases h : a.product_id = pid <;> simp [h]
  | none =>
      right
      exact ⟨by simp, (find?_none_iff_pidRows_nil rows pid).mp hfind⟩

theorem pid_not_mem_of_pidRows_nil (rows : List PopularProductRow) (pid : Int)
    (hnil : pidRows rows pid = []) :
    pid ∉ rows.map (fun r => r.product_id) := by
  intro hmem
  obtain ⟨r, hr, hrid⟩ := List.mem_map.mp hmem
  have : r ∈ pidRows rows pid := List.mem_filter.mpr ⟨hr, by simp [hrid]⟩
  simp [hnil] at this

theorem nodup_ids_upsertView (now pid : Int) (name : String)
    (rows : List PopularProductRow)
    (h : (rows.map (fun r => r.product_id)).Nodup) :
    ((upsertViewPopular now pid name rows).map (fun r => r.product_id)).Nodup := by
  rcases ids_upsertView now pid name rows with heq | ⟨heq, hnil⟩
  · rwa [heq]
  · rw [heq]
    have hpid := pid_not_mem_of_pidRows_nil rows pid hnil
    simp [List.nodup_append, h, hpid]

theorem pidRows_upsertView_self (now pid : Int) (name : String)
    (rows : List PopularProductRow) :
    pidRows (upsertViewPopular now pid name rows) pid ≠ [] := by
  by_cases h : pidRows rows pid = []
  · rw [pidRows_upsertView_nil now pid name rows h]
    simp
  · rw [pidRows_upsertView_upd now pid name rows h]
    simpa using h

theorem pidRows_upsertView_pres (now pid : Int) (name : String)
    (rows : List PopularProductRow) (q : Int) (h : pidRows rows q ≠ []) :
    pidRows (upsertViewPopular now pid name rows) q ≠ [] := by
  by_cases hq : q = pid
  · subst hq
    exact pidRows_upsertView_self now q name rows
  · rw [pidRows_upsertView_ne now pid name rows q hq]
    exact h

theorem upsertOrder_insert (now pid : Int) (name : String)
    (rows : List PopularProductRow) (h : pidRows rows pid = []) :
    upsertOrderPopular now pid name rows
      = rows ++ [{ product_id := pid, product_name := name, view_count := 0,
                   order_count := 1, last_updated := now }] := by
  unfold upsertOrderPopular
  rw [(find?_none_iff_pidRows_nil rows pid).mpr h]

theorem pidRows_upsertOrder_nil (now pid : Int) (name : String)
    (rows : List PopularProductRow) (h : pidRows rows pid = []) :
    pidRows (upsertOrderPopular now pid name rows) pid
      = [{ product_id := pid, product_name := name, view_count := 0,
           order_count := 1, last_updated := now }] := by
  rw [upsertOrder_insert now pid name rows h, pidRows_append_single, h]
  simp

theorem pidRows_upsertOrder_upd (now pid : Int) (name : String)
    (rows : List PopularProductRow) (h : pidRows rows pid ≠ []) :
    pidRows (upsertOrderPopular now pid name rows) pid
      = (pidRows rows pid).map
          (fun r => { r with order_count := r.order_count + 1, last_updated := now }) := by
  unfold upsertOrderPopular
  obtain ⟨x, hx⟩ : ∃ x, rows.find? (fun r => r.product_id == pid) = some x := by
    cases hfind : rows.find? (fun r => r.product_id == pid) with
    | none => exact absurd ((find?_none_iff_pidRows_nil rows pid).mp hfind) h
    | some x => exact ⟨x, rfl⟩
  rw [hx]
  exact pidRows_map_upd pid
    (fun r => { r with order_count := r.order_count + 1, last_updated := now })
    (fun r => rfl) rows

theorem pidRows_upsertOrder_ne (now pid : Int) (name : String)
    (rows : List PopularProductRow) (q : Int) (hq : q ≠ pid) :
    pidRows (upsertOrderPopular now pid name rows) q = pidRows rows q := by
  unfold upsertOrderPopular
  cases hfind : rows.find? (fun r => r.product_id == pid) with
  | some x =>
      exact pidRows_map_upd_ne pid q hq
        (fun r => { r with order_count := r.order_count + 1, last_updated := now })
        (fun r => rfl) rows
  | none =>
      rw [pidRows_append_single]
      simp [Ne.symm hq]

theorem ids_upsertOrder (now pid : Int) (name : String)
    (rows : List PopularProductRow) :
    (upsertOrderPopular now pid name rows).map (fun r => r.product_id)
        = rows.map (fun r => r.product_id)
      ∨ ((upsertOrderPopular now pid name rows).map (fun r => r.product_id)
          = rows.map (fun r => r.product_id) ++ [pid] ∧ pidRows rows pid = []) := by
  unfold upsertOrderPopular
  cases hfind : rows.find? (fun r => r.product_id == pid) with
  | some x =>
      left
      rw [List.map_map]
      apply List.map_congr_left
      intro a _
      by_cases h : a.product_id = pid <;> simp [h]
  | none =>
      right
      exact ⟨by simp, (find?_none_iff_pidRows_nil rows pid).mp hfind⟩

theorem nodup_ids_upsertOrder (now pid : Int) (name : String)
    (rows : List PopularProductRow)
    (h : (rows.map (fun r => r.product_id)).Nodup) :
    ((upsertOrderPopular now pid name rows).map (fun r => r.product_id)).Nodup := by
  rcases ids_upsertOrder now pid name rows with heq | ⟨heq, hnil⟩
  · rwa [heq]
  · rw [heq]
    have hpid := pid_not_mem_of_pidRows_nil rows pid hnil
    simp [List.nodup_append, h, hpid]

theorem pidRows_upsertOrder_self (now pid : Int) (name : String)
    (rows : List PopularProductRow) :
    pidRows (upsertOrderPopular now pid name rows) pid ≠ [] := by
  by_cases h : pidRows rows pid = []
  · rw [pidRows_upsertOrder_nil now pid name rows h]
    simp
  · rw [pidRows_upsertOrder_upd now pid name rows h]
    simpa using h

theorem pidRows_upsertOrder_pres (now pid : Int) (name : String)
    (rows : List PopularProductRow) (q : Int) (h : pidRows rows q ≠ []) :
    pidRows (upsertOrderPopular now pid name rows) q ≠ [] := by
  by_cases hq : q = pid
  · subst hq
    exact pidRows_upsertOrder_self now q name rows
  · rw [pidRows_upsertOrder_ne now pid name rows q hq]
    exact h

theorem countPid_cons_pos (it : OrderItem) (rest : List OrderItem) (pid : Int)
    (h : it.product_id = some pid) :
    countPid (it :: rest) pid = countPid rest pid + 1 := by
  simp [countPid, List.filter_cons, h]

theorem countPid_cons_neg (it : OrderItem) (rest : List OrderItem) (pid : Int)
    (h : ¬ it.product_id = some pid) :
    countPid (it :: rest) pid = countPid rest pid := by
  simp [countPid, List.filter_cons, h]

theorem lu_upsertView (now pid : Int) (name : String)
    (rows : List PopularProductRow) :
    ∀ r ∈ pidRows (upsertViewPopular now pid name rows) pid,
      r.last_updated = now := by
  by_cases h : pidRows rows pid = []
  · rw [pidRows_upsertView_nil now pid name rows h]
    simp
  · rw [pidRows_upsertView_upd now pid name rows h]
    intro r hr
    obtain ⟨a, _, rfl⟩ := List.mem_map.mp hr
    rfl

theorem lu_upsertOrder (now pid : Int) (name : String)
    (rows : List PopularProductRow) :
    ∀ r ∈ pidRows (upsertOrderPopular now pid name rows) pid,
      r.last_updated = now := by
  by_cases h : pidRows rows pid = []
  · rw [pidRows_upsertOrder_nil now pid name rows h]
    simp
  · rw [pidRows_upsertOrder_upd now pid name rows h]
    intro r hr
    obtain ⟨a, _, rfl⟩ := List.mem_map.mp hr
    rfl

theorem foldItems_some_iff (now : Int) (items : List OrderItem) :
    ∀ rows, (∃ rows2, items.foldlM (applyOrderItem now) rows = some rows2)
      ↔ items.all (fun it => it.product_id.isSome) = true := by
  induction items with
  | nil =>
      intro rows
      simp
  | cons it rest ih =>
      intro rows
      cases hit : it.product_id with
      | none => simp [applyOrderItem, hit]
      | some q => simp [applyOrderItem, hit, ih]

theorem foldItems_present (now pid : Int) :
    ∀ (items : List OrderItem) (rows rows2 : List PopularProductRow)
      (r : PopularProductRow),
    pidRows rows pid = [r] →
    items.foldlM (applyOrderItem now) rows = some rows2 →
    ∃ r2, pidRows rows2 pid = [r2] ∧
      r2.order_count = r.order_count + (countPid items pid : Int) ∧
      r2.view_count = r.view_count := by
  intro items
  induction items with
  | nil =>
      intro rows rows2 r h1 h2
      simp only [List.foldlM_nil, Option.pure_def, Option.some_inj] at h2
      subst h2
      exact ⟨r, h1, by simp [countPid], rfl⟩
  | cons it rest ih =>
      intro rows rows2 r h1 h2
      cases hit : it.product_id with
      | none => simp [applyOrderItem, hit] at h2
      | some q =>
          have h2a : rest.foldlM (applyOrderItem now)
              (upsertOrderPopular now q (it.product_name.getD "Unknown") rows)
              = some rows2 := by
            simpa [applyOrderItem, hit] using h2
          by_cases hq : q = pid
          · subst hq
            have hupd := pidRows_upsertOrder_upd now q
              (it.product_name.getD "Unknown") rows (by rw [h1]; simp)
            rw [h1, List.map_cons, List.map_nil] at hupd
            obtain ⟨r2, ha, hb, hc⟩ := ih _ rows2 _ hupd h2a
            refine ⟨r2, ha, ?_, by simpa using hc⟩
            rw [countPid_cons_pos it rest q hit]
            simp only at hb
            push_cast at hb ⊢
            omega
          · have hne := pidRows_upsertOrder_ne now q
              (it.product_name.getD "Unknown") rows pid (fun hc => hq hc.symm)
            rw [h1] at hne
            obtain ⟨r2, ha, hb, hc⟩ := ih _ rows2 r hne h2a
            refine ⟨r2, ha, ?_, hc⟩
            rw [countPid_cons_neg it rest pid (by simp [hit, hq])]
            exact hb

theorem foldItems_absent (now pid : Int) :
    ∀ (items : List OrderItem) (rows rows2 : List PopularProductRow),
    pidRows rows pid = [] →
    items.foldlM (applyOrderItem now) rows = some rows2 →
    (countPid items pid = 0 → pidRows rows2 pid = []) ∧
    (0 < countPid items pid →
      ∃ r2, pidRows rows2 pid = [r2] ∧
        r2.order_count = (countPid items pid : Int) ∧ r2.view_count = 0) := by
  intro items
  induction items with
  | nil =>
      intro rows rows2 h1 h2
      simp only [List.foldlM_nil, Option.pure_def, Option.some_inj] at h2
      subst h2
      exact ⟨fun _ => h1, by simp [countPid]⟩
  | cons it rest ih =>
      intro rows rows2 h1 h2
      cases hit : it.product_id with
      | none => simp [applyOrderItem, hit] at h2
      | some q =>
          have h2a : rest.foldlM (applyOrderItem now)
              (upsertOrderPopular now q (it.product_name.getD "Unknown") rows)
              = some rows2 := by
            simpa [applyOrderItem, hit] using h2
          by_cases hq : q = pid
          · subst hq
            have hins := pidRows_upsertOrder_nil now q
              (it.product_name.getD "Unknown") rows h1
            obtain ⟨r2, ha, hb, hc⟩ :=
              foldItems_present now q rest _ rows2 _ hins h2a
            constructor
            · intro h0
              rw [countPid_cons_pos it rest q hit] at h0
              omega
            · intro _
              refine ⟨r2, ha, ?_, by simpa using hc⟩
              rw [countPid_cons_pos it rest q hit]
              simp only at hb
              push_cast at hb ⊢
              omega
          · have hne := pidRows_upsertOrder_ne now q
              (it.product_name.getD "Unknown") rows pid (fun hc => hq hc.symm)
            rw [h1] at hne
            have := ih _ rows2 hne h2a
            rwa [countPid_cons_neg it rest pid (by simp [hit, hq])]

theorem foldItems_nodup (now : Int) :
    ∀ (items : List OrderItem) (rows rows2 : List PopularProductRow),
    (rows.map (fun r => r.product_id)).Nodup →
    items.foldlM (applyOrderItem now) rows = some rows2 →
    (rows2.map (fun r => r.product_id)).Nodup := by
  intro items
  induction items with
  | nil =>
      intro rows rows2 h1 h2
      simp only [List.foldlM_nil, Option.pure_def, Option.some_inj] at h2
      subst h2
      exact h1
  | cons it rest ih =>
      intro rows rows2 h1 h2
      cases hit : it.product_id with
      | none => simp [applyOrderItem, hit] at h2
      | some q =>
          have h2a : rest.foldlM (applyOrderItem now)
              (upsertOrderPopular now q (it.product_name.getD "Unknown") rows)
              = some rows2 := by
            simpa [applyOrderItem, hit] using h2
          exact ih _ rows2 (nodup_ids_upsertOrder now q _ rows h1) h2a

theorem foldItems_pres (now q : Int) :
    ∀ (items : List OrderItem) (rows rows2 : List PopularProductRow),
    pidRows rows q ≠ [] →
    items.foldlM (applyOrderItem now) rows = some rows2 →
    pidRows rows2 q ≠ [] := by
  intro items
  induction items with
  | nil =>
      intro rows rows2 h1 h2
      simp only [List.foldlM_nil, Option.pure_def, Option.some_inj] at h2
      subst h2
      exact h1
  | cons it rest ih =>
      intro rows rows2 h1 h2
      cases hit : it.product_id with
      | none => simp [applyOrderItem, hit] at h2
      | some p =>
          have h2a : rest.foldlM (applyOrderItem now)
              (upsertOrderPopular now p (it.product_name.getD "Unknown") rows)
              = some rows2 := by
            simpa [applyOrderItem, hit] using h2
          exact ih _ rows2 (pidRows_upsertOrder_pres now p _ rows q h1) h2a

theorem foldItems_touch (now pid : Int) :
    ∀ (items : List OrderItem) (rows rows2 : List PopularProductRow),
    (∃ it ∈ items, it.product_id = some pid) →
    items.foldlM (applyOrderItem now) rows = some rows2 →
    pidRows rows2 pid ≠ [] := by
  intro items
  induction items with
  | nil =>
      intro rows rows2 h1 _
      simp at h1
  | cons it rest ih =>
      intro rows rows2 h1 h2
      cases hit : it.product_id with
      | none => simp [applyOrderItem, hit] at h2
      | some p =>
          have h2a : rest.foldlM (applyOrderItem now)
              (upsertOrderPopular now p (it.product_name.getD "Unknown") rows)
              = some rows2 := by
            simpa [applyOrderItem, hit] using h2
          rcases h1 with ⟨w, hw, hwid⟩
          rcases List.mem_cons.mp hw with rfl | hwrest
          · have hp : p = pid := by
              rw [hit] at hwid
              exact Option.some_inj.mp hwid
            subst hp
            exact foldItems_pres now p rest _ rows2
              (pidRows_upsertOrder_self now p _ rows) h2a
          · exact ih _ rows2 ⟨w, hwrest, hwid⟩ h2a

theorem foldItems_lu (now pid : Int) :
    ∀ (items : List OrderItem) (rows rows2 : List PopularProductRow),
    items.foldlM (applyOrderItem now) rows = some rows2 →
    ((∃ it ∈ items, it.product_id = some pid) ∨
      (∀ r ∈ pidRows rows pid, r.last_updated = now)) →
    ∀ r ∈ pidRows rows2 pid, r.last_updated = now := by
  intro items
  induction items with
  | nil =>
      intro rows rows2 h2 h1
      simp only [List.foldlM_nil, Option.pure_def, Option.some_inj] at h2
      subst h2
      rcases h1 with h1 | h1
      · simp at h1
      · exact h1
  | cons it rest ih =>
      intro rows rows2 h2 h1
      cases hit : it.product_id with
      | none => simp [applyOrderItem, hit] at h2
      | some p =>
          have h2a : rest.foldlM (applyOrderItem now)
              (upsertOrderPopular now p (it.product_name.getD "Unknown") rows)
              = some rows2 := by
            simpa [applyOrderItem, hit] using h2
          apply ih _ rows2 h2a
          rcases h1 with ⟨w, hw, hwid⟩ | h1
          · rcases List.mem_cons.mp hw with rfl | hwrest
            · right
              have hp : p = pid := by
                rw [hit] at hwid
                exact Option.some_inj.mp hwid
              subst hp
              exact lu_upsertOrder now p _ rows
            · left
              exact ⟨w, hwrest, hwid⟩
          · by_cases hp : p = pid
            · subst hp
              right
              exact lu_upsertOrder now p _ rows
            · right
              rw [pidRows_upsertOrder_ne now p _ rows pid (fun hc => hp hc.symm)]
              exact h1

theorem handleProductView_some (now : Int) (d : EventDict) (s : Store) (pid : Int)
    (h : d.product_id = some pid) :
    handleProductView now d s = some { s with
      product_views := s.product_views ++
        [{ product_id := pid, user_id := d.user_id, viewed_at := now }],
      popular_products :=
        upsertViewPopular now pid (d.product_name.getD "Unknown")
          s.popular_products } := by
  simp [handleProductView, h]

theorem handleProductView_none (now : Int) (d : EventDict) (s : Store)
    (h : d.product_id = none) :
    handleProductView now d s = none := by
  simp [handleProductView, h]

theorem handleOrderCreated_char (now : Int) (d : EventDict) (s s2 : Store)
    (h : handleOrderCreated now d s = some s2) :
    ∃ m rows2,
      s2 = { s with order_metrics := s.order_metrics ++ [m],
                    popular_products := rows2 } ∧
      m.created_at = now ∧
      (itemsOf d).foldlM (applyOrderItem now) s.popular_products = some rows2 := by
  cases hoid : d.order_id with
  | none => simp [handleOrderCreated, hoid] at h
  | some oid =>
  cases huid : d.user_id with
  | none => simp [handleOrderCreated, hoid, huid] at h
  | some uid =>
  cases hamt : d.total_amount with
  | none => simp [handleOrderCreated, hoid, huid, hamt] at h
  | some amt =>
  cases hcnt : d.items_count with
  | none => simp [handleOrderCreated, hoid, huid, hamt, hcnt] at h
  | some cnt =>
  cases hfold : (d.items.getD []).foldlM (applyOrderItem now) s.popular_products with
  | none => simp [handleOrderCreated, hoid, huid, hamt, hcnt, hfold] at h
  | some rows2 =>
      refine ⟨{ order_id := oid, user_id := uid, total_amount := amt,
                items_count := cnt,
                delivery_type := d.delivery_type.getD "unknown",
                created_at := now }, rows2, ?_, rfl,
              by simpa [itemsOf] using hfold⟩
      have h2 := h
      simp [handleOrderCreated, hoid, huid, hamt, hcnt, hfold] at h2
      exact h2.symm

theorem handleOrderCreated_ok (now : Int) (d : EventDict) (s : Store)
    (h : orderFieldsOk d = true) :
    ∃ s2, handleOrderCreated now d s = some s2 := by
  have h5 := h
  unfold orderFieldsOk at h5
  simp only [Bool.and_eq_true] at h5
  obtain ⟨⟨⟨⟨h1, h2⟩, h3⟩, h4⟩, hall⟩ := h5
  obtain ⟨oid, hoid⟩ := Option.isSome_iff_exists.mp h1
  obtain ⟨uid, huid⟩ := Option.isSome_iff_exists.mp h2
  obtain ⟨amt, hamt⟩ := Option.isSome_iff_exists.mp h3
  obtain ⟨cnt, hcnt⟩ := Option.isSome_iff_exists.mp h4
  obtain ⟨rows2, hrows⟩ :=
    (foldItems_some_iff now (itemsOf d) s.popular_products).mpr hall
  simp only [handleOrderCreated, hoid, huid, hamt, hcnt]
  rw [show d.items.getD [] = itemsOf d from rfl, hrows]
  exact ⟨_, rfl⟩

theorem pidRows_length_le_one (pid : Int) :
    ∀ rows : List PopularProductRow,
    (rows.map (fun r => r.product_id)).Nodup →
    (pidRows rows pid).length ≤ 1 := by
  intro rows
  induction rows with
  | nil => simp [pidRows]
  | cons r rest ih =>
      intro h
      simp only [List.map_cons, List.nodup_cons] at h
      obtain ⟨hnot, hrest⟩ := h
      by_cases hr : r.product_id = pid
      · have hnil : pidRows rest pid = [] := by
          apply List.filter_eq_nil_iff.mpr
          intro a ha
          simp only [beq_iff_eq]
          intro hc
          exact hnot (List.mem_map.mpr ⟨a, ha, by rw [hc, hr]⟩)
        have hcons : pidRows (r :: rest) pid = r :: pidRows rest pid := by
          simp [pidRows, List.filter_cons, hr]
        rw [hcons, hnil]
        simp
      · simp only [pidRows, List.filter_cons] at ih ⊢
        simpa [hr] using ih hrest

theorem processMessage_nodup (now : Int) (m : Message) (s : Store)
    (h : (s.popular_products.map (fun r => r.product_id)).Nodup) :
    ((processMessage now m s).popular_products.map (fun r => r.product_id)).Nodup := by
  unfold processMessage
  cases hd : dispatch m.topic (m.value.event_type.getD "") with
  | drop => exact h
  | view =>
      cases hpid : m.value.product_id with
      | none => rw [handleProductView_none now m.value s hpid]; exact h
      | some pid =>
          rw [handleProductView_some now m.value s pid hpid, Option.getD_some]
          exact nodup_ids_upsertView now pid _ s.popular_products h
  | order =>
      cases hh : handleOrderCreated now m.value s with
      | none => exact h
      | some s2 =>
          obtain ⟨mrec, rows2, hs2, _, hfold⟩ :=
            handleOrderCreated_char now m.value s s2 hh
          subst hs2
          rw [Option.getD_some]
          exact foldItems_nodup now (itemsOf m.value) s.popular_products rows2 h hfold

theorem processMessage_pres (now : Int) (m : Message) (s : Store) (q : Int)
    (h : pidRows s.popular_products q ≠ []) :
    pidRows (processMessage now m s).popular_products q ≠ [] := by
  unfold processMessage
  cases hd : dispatch m.topic (m.value.event_type.getD "") with
  | drop => exact h
  | view =>
      cases hpid : m.value.product_id with
      | none => rw [handleProductView_none now m.value s hpid]; exact h
      | some pid =>
          rw [handleProductView_some now m.value s pid hpid, Option.getD_some]
          exact pidRows_upsertView_pres now pid _ s.popular_products q h
  | order =>
      cases hh : handleOrderCreated now m.value s with
      | none => exact h
      | some s2 =>
          obtain ⟨mrec, rows2, hs2, _, hfold⟩ :=
            handleOrderCreated_char now m.value s s2 hh
          subst hs2
          rw [Option.getD_some]
          exact foldItems_pres now q (itemsOf m.value) s.popular_products rows2 h hfold

theorem processMessage_touch (now : Int) (m : Message) (s : Store) (pid : Int)
    (h : touches m pid = true) :
    pidRows (processMessage now m s).popular_products pid ≠ [] := by
  unfold touches at h
  unfold processMessage
  cases hd : dispatch m.topic (m.value.event_type.getD "") with
  | drop => rw [hd] at h; simp at h
  | view =>
      rw [hd] at h
      have hpid : m.value.product_id = some pid := by simpa using h
      rw [handleProductView_some now m.value s pid hpid, Option.getD_some]
      exact pidRows_upsertView_self now pid _ s.popular_products
  | order =>
      rw [hd] at h
      simp only [Bool.and_eq_true] at h
      obtain ⟨hok, hex⟩ := h
      obtain ⟨s2, hs2⟩ := handleOrderCreated_ok now m.value s hok
      rw [hs2, Option.getD_some]
      obtain ⟨mrec, rows2, hs2eq, _, hfold⟩ :=
        handleOrderCreated_char now m.value s s2 hs2
      subst hs2eq
      refine foldItems_touch now pid (itemsOf m.value) s.popular_products rows2 ?_ hfold
      obtain ⟨it, hit, hitid⟩ := List.any_eq_true.mp hex
      exact ⟨it, hit, by simpa using hitid⟩

theorem processAll_nodup :
    ∀ (msgs : List (Int × Message)) (s : Store),
    (s.popular_products.map (fun r => r.product_id)).Nodup →
    ((processAll msgs s).popular_products.map (fun r => r.product_id)).Nodup := by
  intro msgs
  induction msgs with
  | nil => intro s h; exact h
  | cons tm rest ih =>
      intro s h
      exact ih _ (processMessage_nodup tm.1 tm.2 s h)

theorem processAll_pres :
    ∀ (msgs : List (Int × Message)) (s : Store) (q : Int),
    pidRows s.popular_products q ≠ [] →
    pidRows (processAll msgs s).popular_products q ≠ [] := by
  intro msgs
  induction msgs with
  | nil => intro s q h; exact h
  | cons tm rest ih =>
      intro s q h
      exact ih _ q (processMessage_pres tm.1 tm.2 s q h)

theorem processAll_touch :
    ∀ (msgs : List (Int × Message)) (s : Store) (pid : Int),
    (∃ tm ∈ msgs, touches (Prod.snd tm) pid = true) →
    pidRows (processAll msgs s).popular_products pid ≠ [] := by
  intro msgs
  induction msgs with
  | nil => intro s pid h; simp at h
  | cons tm rest ih =>
      intro s pid h
      rcases h with ⟨w, hw, hwt⟩
      rcases List.mem_cons.mp hw with rfl | hwrest
      · exact processAll_pres rest _ pid (processMessage_touch w.1 w.2 s pid hwt)
      · exact ih _ pid ⟨w, hwrest, hwt⟩

theorem view_once_more (now : Int) (d : EventDict) (s : Store) (pid : Int)
    (r : PopularProductRow) (hpid : d.product_id = some pid)
    (h : pidRows s.popular_products pid = [r]) :
    ∃ s2, handleProductView now d s = some s2 ∧
      ∃ r2, pidRows s2.popular_products pid = [r2] ∧
        r2.view_count = r.view_count + 1 ∧ r2.order_count = r.order_count := by
  refine ⟨_, handleProductView_some now d s pid hpid, ?_⟩
  have hupd := pidRows_upsertView_upd now pid (d.product_name.getD "Unknown")
    s.popular_products (by rw [h]; simp)
  rw [h, List.map_cons, List.map_nil] at hupd
  exact ⟨_, hupd, rfl, rfl⟩

theorem runViews_present (pid : Int) :
    ∀ (evs : List (Int × EventDict)) (s : Store) (r : PopularProductRow),
    (∀ e ∈ evs, (Prod.snd e).product_id = some pid) →
    pidRows s.popular_products pid = [r] →
    (runViews evs s).product_views.length = s.product_views.length + evs.length ∧
    ∃ r2, pidRows (runViews evs s).popular_products pid = [r2] ∧
      r2.view_count = r.view_count + (evs.length : Int) ∧
      r2.order_count = r.order_count := by
  intro evs
  induction evs with
  | nil =>
      intro s r h1 h2
      exact ⟨by simp [runViews], r, h2, by simp, by simp⟩
  | cons e rest ih =>
      intro s r h1 h2
      obtain ⟨now, d⟩ := e
      have hpid : d.product_id = some pid := h1 (now, d) (by simp)
      rw [runViews, handleProductView_some now d s pid hpid, Option.getD_some]
      have hupd := pidRows_upsertView_upd now pid (d.product_name.getD "Unknown")
        s.popular_products (by rw [h2]; simp)
      rw [h2, List.map_cons, List.map_nil] at hupd
      obtain ⟨hlen, r2, ha, hb, hc⟩ :=
        ih { s with
              product_views := s.product_views ++
                [{ product_id := pid, user_id := d.user_id, viewed_at := now }],
              popular_products :=
                upsertViewPopular now pid (d.product_name.getD "Unknown")
                  s.popular_products }
          { r with view_count := r.view_count + 1, last_updated := now }
          (fun e he => h1 e (List.mem_cons_of_mem _ he)) hupd
      refine ⟨?_, r2, ha, ?_, ?_⟩
      · have hpv : ({ s with
            product_views := s.product_views ++
              [{ product_id := pid, user_id := d.user_id, viewed_at := now }],
            popular_products :=
              upsertViewPopular now pid (d.product_name.getD "Unknown")
                s.popular_products } : Store).product_views.length
            = s.product_views.length + 1 := by simp
        rw [hlen, hpv, List.length_cons]
        omega
      · have hvc : ({ r with
            view_count := r.view_count + 1,
            last_updated := now } : PopularProductRow).view_count
            = r.view_count + 1 := rfl
        rw [hb, hvc, List.length_cons]
        push_cast
        ring
      · rw [hc]

/-- C1: starting from a store with no PopularProduct row for a product_id,
processing N view events for it inserts one ViewRecord per event and leaves
exactly one PopularProduct row with view_count N and order_count 0, and
processing one more view event for the same product_id (a simulated
duplicate) yields view_count N + 1. -/
theorem C1_view_counting (pid : Int) (evs : List (Int × EventDict)) (s : Store)
    (hall : ∀ e ∈ evs, (Prod.snd e).product_id = some pid)
    (hnone : pidRows s.popular_products pid = [])
    (hne : evs ≠ []) :
    (runViews evs s).product_views.length = s.product_views.length + evs.length ∧
    (∃ r, pidRows (runViews evs s).popular_products pid = [r] ∧
      r.view_count = (evs.length : Int) ∧ r.order_count = 0) ∧
    (∀ now2 d, d.product_id = some pid →
      ∃ s2, handleProductView now2 d (runViews evs s) = some s2 ∧
        ∃ r2, pidRows s2.popular_products pid = [r2] ∧
          r2.view_count = (evs.length : Int) + 1) := by
  obtain ⟨e, rest, rfl⟩ : ∃ e rest, evs = e :: rest := by
    cases evs with
    | nil => exact absurd rfl hne
    | cons e rest => exact ⟨e, rest, rfl⟩
  obtain ⟨now, d⟩ := e
  have hpid : d.product_id = some pid := hall (now, d) (by simp)
  have hmain :
      (runViews ((now, d) :: rest) s).product_views.length
          = s.product_views.length + ((now, d) :: rest).length ∧
      ∃ r2, pidRows (runViews ((now, d) :: rest) s).popular_products pid = [r2] ∧
        r2.view_count = (((now, d) :: rest).length : Int) ∧ r2.order_count = 0 := by
    rw [runViews, handleProductView_some now d s pid hpid, Option.getD_some]
    have hins := pidRows_upsertView_nil now pid (d.product_name.getD "Unknown")
      s.popular_products hnone
    obtain ⟨hlen, r2, ha, hb, hc⟩ := runViews_present pid rest
      { s with
        product_views := s.product_views ++
          [{ product_id := pid, user_id := d.user_id, viewed_at := now }],
        popular_products :=
          upsertViewPopular now pid (d.product_name.getD "Unknown")
            s.popular_products }
      { product_id := pid, product_name := d.product_name.getD "Unknown",
        view_count := 1, order_count := 0, last_updated := now }
      (fun e he => hall e (List.mem_cons_of_mem _ he)) hins
    refine ⟨?_, r2, ha, ?_, ?_⟩
    · have hpv : ({ s with
          product_views := s.product_views ++
            [{ product_id := pid, user_id := d.user_id, viewed_at := now }],
          popular_products :=
            upsertViewPopular now pid (d.product_name.getD "Unknown")
              s.popular_products } : Store).product_views.length
          = s.product_views.length + 1 := by simp
      rw [hlen, hpv, List.length_cons]
      omega
    · have hvc : ({ product_id := pid,
                    product_name := d.product_name.getD "Unknown",
                    view_count := 1, order_count := 0,
                    last_updated := now } : PopularProductRow).view_count
          = 1 := rfl
      rw [hb, hvc, List.length_cons]
      push_cast
      ring
    · rw [hc]
  obtain ⟨hlen, r, hr, hvc, hoc⟩ := hmain
  refine ⟨hlen, ⟨r, hr, hvc, hoc⟩, ?_⟩
  intro now2 d2 hpid2
  obtain ⟨s2, hs2, r2, ha, hb, _⟩ :=
    view_once_more now2 d2 (runViews ((now, d) :: rest) s) pid r hpid2 hr
  exact ⟨s2, hs2, r2, ha, by rw [hb, hvc]⟩

theorem C1_witness :
    pidRows store0.popular_products 1 = [] ∧
    (runViews [(10, dictView1), (20, dictView1)] store0).product_views.length
        = store0.product_views.length + 2 ∧
    ∃ r, pidRows
        (runViews [(10, dictView1), (20, dictView1)] store0).popular_products 1
        = [r] ∧ r.view_count = 2 ∧ r.order_count = 0 := by
  have h := C1_view_counting 1 [(10, dictView1), (20, dictView1)] store0
    (by decide) (by decide) (by decide)
  exact ⟨by decide, h.1, h.2.1⟩

/-- C2: a committed order-created event inserts exactly one OrderMetric row
and, per line item naming a product_id, increments that product's
order_count by exactly one (inserting view_count 0, order_count 1 when the
row is absent); the increment is the number of line items naming the id and
never mentions any quantity field. -/
theorem C2_order_increment (now : Int) (d : EventDict) (s s2 : Store)
    (h : handleOrderCreated now d s = some s2) :
    s2.order_metrics.length = s.order_metrics.length + 1 ∧
    ∀ pid : Int,
      (∀ r, pidRows s.popular_products pid = [r] →
        ∃ r2, pidRows s2.popular_products pid = [r2] ∧
          r2.order_count = r.order_count + (countPid (itemsOf d) pid : Int) ∧
          r2.view_count = r.view_count) ∧
      (pidRows s.popular_products pid = [] → 0 < countPid (itemsOf d) pid →
        ∃ r2, pidRows s2.popular_products pid = [r2] ∧
          r2.order_count = (countPid (itemsOf d) pid : Int) ∧
          r2.view_count = 0) := by
  obtain ⟨m, rows2, hs2, hts, hfold⟩ := handleOrderCreated_char now d s s2 h
  subst hs2
  refine ⟨by simp, fun pid => ⟨?_, ?_⟩⟩
  · intro r hr
    exact foldItems_present now pid (itemsOf d) s.popular_products rows2 r hr hfold
  · intro hnil hpos
    exact (foldItems_absent now pid (itemsOf d) s.popular_products rows2
      hnil hfold).2 hpos

theorem C2_witness :
    handleOrderCreated 30 dictOrder1 storeP1 = some s2ex ∧
    s2ex.order_metrics.length = storeP1.order_metrics.length + 1 ∧
    ∃ r2, pidRows s2ex.popular_products 1 = [r2] ∧
      r2.order_count = 0 + (countPid (itemsOf dictOrder1) 1 : Int) ∧
      r2.view_count = 0 := by
  have hh : handleOrderCreated 30 dictOrder1 storeP1 = some s2ex := rfl
  have h := C2_order_increment 30 dictOrder1 storeP1 s2ex hh
  obtain ⟨r2, ha, hb, hc⟩ := (h.2 1).1
    { product_id := 1, product_name := "Rose", view_count := 0,
      order_count := 0, last_updated := 0 } (by decide)
  exact ⟨hh, h.1, r2, ha, hb, hc⟩

/-- C3: sequential processing by one consumer instance preserves the
at-most-one-row-per-product_id invariant of popular_products, and every
product_id successfully touched by a view or order message in the sequence
has exactly one row afterwards, whichever kind of message came first. -/
theorem C3_one_row_invariant (msgs : List (Int × Message)) (s : Store)
    (hnd : (s.popular_products.map (fun r => r.product_id)).Nodup) :
    ((processAll msgs s).popular_products.map (fun r => r.product_id)).Nodup ∧
    ∀ pid : Int, (∃ tm ∈ msgs, touches (Prod.snd tm) pid = true) →
      (pidRows (processAll msgs s).popular_products pid).length = 1 := by
  refine ⟨processAll_nodup msgs s hnd, ?_⟩
  intro pid htouch
  have hne := processAll_touch msgs s pid htouch
  have hle := pidRows_length_le_one pid _ (processAll_nodup msgs s hnd)
  have h0 : (pidRows (processAll msgs s).popular_products pid).length ≠ 0 :=
    fun hz => hne (List.length_eq_zero.mp hz)
  omega

theorem C3_witness :
    (store0.popular_products.map (fun r => r.product_id)).Nodup ∧
    ((processAll msgsEx store0).popular_products.map
        (fun r => r.product_id)).Nodup ∧
    (pidRows (processAll msgsEx store0).popular_products 1).length = 1 := by
  have h := C3_one_row_invariant msgsEx store0 (by decide)
  refine ⟨by decide, h.1, h.2 1 ?_⟩
  exact ⟨(10, { topic := "product_views", value := dictView1 }),
    List.mem_cons_self _ _, by decide⟩

theorem round2_zero : round2 0 = 0 := by
  have h0 : roundHalfEven 0 = 0 := by
    unfold roundHalfEven
    rw [show (0 : Rat).floor = 0 from rfl]
    norm_num
  unfold round2
  rw [zero_mul, h0]
  norm_num

/-- C4: the dashboard's avg_order_value equals total_revenue divided by the
OrderMetric row count, rounded to 2 decimal places, when at least one order
exists, and equals 0 when no OrderMetric rows exist. -/
theorem C4_avg_order_value (t : Int) (s : Store) :
    (0 < s.order_metrics.length →
      (getDashboard t s).avg_order_value
        = round2 (totalRevenue s / (s.order_metrics.length : Rat))) ∧
    (s.order_metrics.length = 0 → (getDashboard t s).avg_order_value = 0) := by
  constructor
  · intro h
    simp only [getDashboard]
    rw [if_pos h]
  · intro h
    simp only [getDashboard]
    rw [if_neg (by omega)]
    exact round2_zero

theorem C4_witness :
    0 < storeLate.order_metrics.length ∧
    (getDashboard 0 storeLate).avg_order_value
      = round2 (totalRevenue storeLate / (storeLate.order_metrics.length : Rat)) :=
  ⟨by decide, (C4_avg_order_value 0 storeLate).1 (by decide)⟩

/-- C5: the send operation of both emitters never surfaces a failure to the
caller: with no live producer it is a no-op that drops the event, and a
transport error during publish is caught, so the call always returns
normally. -/
theorem C5_send_never_fails (p : Option Unit) (pub : TransportResult) :
    (∃ o, catalogSendEvent p pub = .ok o) ∧
    (∃ o, orderSendEvent p pub = .ok o) ∧
    catalogSendEvent none pub = .ok .dropped ∧
    orderSendEvent none pub = .ok .dropped := by
  cases p <;> cases pub <;> exact ⟨⟨_, rfl⟩, ⟨_, rfl⟩, rfl, rfl⟩

/-- C6 counterexample: the order-service stop is called with a live producer
whose underlying close raises; the exception propagates to the caller (and
the handle stays set), contradicting the claim that close exceptions are
caught in both emitters. -/
theorem C6_counterexample :
    orderStop (some ()) (.err "connection lost")
      = (some (), .error "connection lost") := rfl

/-- C6 amended: the catalog emitter's stop never raises, clears the handle
even when the underlying close fails, and a second call is a no-op; the
order-service stop is a no-op without a connection and a second call after a
successful close is a no-op, but an exception from the underlying close
propagates to the caller and leaves the handle set. -/
theorem C6_stop_semantics (p : Option Unit) (c c2 : TransportResult)
    (m : String) :
    (∃ o, (catalogStop p c).2 = .ok o) ∧
    (catalogStop p c).1 = none ∧
    catalogStop (catalogStop p c).1 c2 = (none, .ok .noop) ∧
    orderStop none c = (none, .ok .noop) ∧
    orderStop (orderStop p .ok).1 c2 = (none, .ok .noop) ∧
    orderStop (some ()) (.err m) = (some (), .error m) := by
  cases p <;> cases c <;> exact ⟨⟨_, rfl⟩, rfl, rfl, rfl, rfl, rfl⟩

/-- C7 counterexample: a store of 12 popular-product rows with distinct
product_ids but equal view_counts; the top-by-views query returns 10 rows
that are not strictly descending in view_count, refuting the strictness in
the claim. -/
theorem C7_counterexample :
    rows12.length = 12 ∧
    (rows12.map (fun r => r.product_id)).Nodup ∧
    (topByViews rows12).length = 10 ∧
    strictViewDesc (topByViews rows12) = false := by
  exact ⟨by decide, by decide, by decide, by decide⟩

/-- C7 amended: on a store of 12 rows with distinct product_ids the
top-by-views query returns exactly 10 rows, in non-increasing view_count
order (ties allowed), and every returned row's view_count is at least that
of every row left out. -/
theorem C7_top_by_views (rows : List PopularProductRow)
    (h12 : rows.length = 12)
    (hnd : (rows.map (fun r => r.product_id)).Nodup) :
    (topByViews rows).length = 10 ∧
    List.Sorted viewGe (topByViews rows) ∧
    ∃ rest, List.Perm rows (topByViews rows ++ rest) ∧
      ∀ a ∈ topByViews rows, ∀ b ∈ rest, b.view_count ≤ a.view_count := by
  have hperm := List.perm_insertionSort viewGe rows
  have hsorted := List.sorted_insertionSort viewGe rows
  have hlen : (List.insertionSort viewGe rows).length = 12 := by
    rw [hperm.length_eq, h12]
  refine ⟨?_, ?_, (List.insertionSort viewGe rows).drop 10, ?_, ?_⟩
  · simp [topByViews, hlen]
  · exact List.Pairwise.sublist (List.take_sublist 10 _) hsorted
  · have hsplit : topByViews rows ++ (List.insertionSort viewGe rows).drop 10
        = List.insertionSort viewGe rows := by
      simp [topByViews, List.take_append_drop]
    rw [hsplit]
    exact hperm.symm
  · intro a ha b hb
    exact hsorted.rel_of_mem_take_of_mem_drop ha hb

theorem C7_witness :
    rows12.length = 12 ∧
    (topByViews rows12).length = 10 ∧
    List.Sorted viewGe (topByViews rows12) :=
  ⟨by decide, (C7_top_by_views rows12 (by decide) (by decide)).1,
    (C7_top_by_views rows12 (by decide) (by decide)).2.1⟩

theorem getOrderMetrics_eq_filter_sorted (f t : Option Int) (s : Store) :
    getOrderMetrics f t s
      = (List.insertionSort createdGe s.order_metrics).filter (inWindow f t) := by
  cases f with
  | none =>
      cases t with
      | none =>
          simp only [getOrderMetrics]
          exact (List.filter_eq_self.mpr (fun a _ => by simp [inWindow])).symm
      | some d2 =>
          simp only [getOrderMetrics]
          exact List.filter_congr (fun a _ => by simp [inWindow])
  | some d1 =>
      cases t with
      | none =>
          simp only [getOrderMetrics]
          exact List.filter_congr (fun a _ => by simp [inWindow])
      | some d2 =>
          simp only [getOrderMetrics]
          rw [List.filter_filter]
          exact List.filter_congr (fun a _ => by simp [inWindow, Bool.and_comm])

/-- C8 counterexample: with to_date equal to day 0, an OrderMetric record
stamped at 23:59:59.000001 of day 0 - strictly after 23:59:59 - is still
returned by the order-metrics listing, refuting the claimed 23:59:59 upper
bound: the code bounds the window with time.max, 23:59:59.999999. -/
theorem C8_counterexample :
    dayStartUs 0 + 86399000000 < recLate.created_at ∧
    getOrderMetrics none (some 0) storeLate = [recLate] := by
  exact ⟨by decide, by decide⟩

/-- C8 amended: the order-metrics listing returns exactly the OrderMetric
rows whose created_at lies in the inclusive window from from_date 00:00:00
to to_date 23:59:59.999999 (each side unbounded when the bound is omitted),
sorted non-increasing by created_at. -/
theorem C8_order_listing (f t : Option Int) (s : Store) :
    List.Perm (getOrderMetrics f t s) (s.order_metrics.filter (inWindow f t)) ∧
    List.Sorted createdGe (getOrderMetrics f t s) := by
  have hperm := List.perm_insertionSort createdGe s.order_metrics
  have hsorted := List.sorted_insertionSort createdGe s.order_metrics
  rw [getOrderMetrics_eq_filter_sorted f t s]
  exact ⟨hperm.filter _, hsorted.filter _⟩

/-- C9: stored timestamps come from the consumer clock at handling time -
ViewRecord.viewed_at, OrderMetric.created_at and PopularProduct.last_updated
all equal the handler's now - while the payload's own timestamp and
created_at fields never influence the result, so a late-delivered event is
recorded at processing time. -/
theorem C9_processing_time (now t1 t2 : Int) (d : EventDict) (s : Store) :
    handleProductView now
        { d with timestamp := some t1, created_at := some t2 } s
      = handleProductView now d s ∧
    handleOrderCreated now
        { d with timestamp := some t1, created_at := some t2 } s
      = handleOrderCreated now d s ∧
    (∀ s2, handleProductView now d s = some s2 →
      (∃ v, s2.product_views = s.product_views ++ [v] ∧ v.viewed_at = now) ∧
      ∀ pid : Int, d.product_id = some pid →
        ∀ r ∈ pidRows s2.popular_products pid, r.last_updated = now) ∧
    (∀ s2, handleOrderCreated now d s = some s2 →
      (∃ m, s2.order_metrics = s.order_metrics ++ [m] ∧ m.created_at = now) ∧
      ∀ pid : Int, (∃ it ∈ itemsOf d, it.product_id = some pid) →
        ∀ r ∈ pidRows s2.popular_products pid, r.last_updated = now) := by
  refine ⟨by cases d; rfl, by cases d; rfl, ?_, ?_⟩
  · intro s2 h
    cases hpid : d.product_id with
    | none =>
        rw [handleProductView_none now d s hpid] at h
        exact absurd h (by simp)
    | some pid =>
        rw [handleProductView_some now d s pid hpid] at h
        obtain rfl := Option.some_inj.mp h
        constructor
        · exact ⟨_, rfl, rfl⟩
        · intro pid2 hpid2 r hr
          obtain rfl := Option.some_inj.mp hpid2
          exact lu_upsertView now pid _ s.popular_products r hr
  · intro s2 h
    obtain ⟨m, rows2, hs2, hts, hfold⟩ := handleOrderCreated_char now d s s2 h
    subst hs2
    constructor
    · exact ⟨m, rfl, hts⟩
    · intro pid hex r hr
      exact foldItems_lu now pid (itemsOf d) s.popular_products rows2 hfold
        (Or.inl hex) r hr

theorem C9_witness :
    (handleProductView 5
        { dictFull with timestamp := some 1, created_at := some 2 } store0
      = handleProductView 5 dictFull store0) ∧
    (∃ v, vs2.product_views = store0.product_views ++ [v] ∧ v.viewed_at = 5) ∧
    (∃ m, os2.order_metrics = store0.order_metrics ++ [m] ∧ m.created_at = 5) := by
  have h := C9_processing_time 5 1 2 dictFull store0
  exact ⟨h.1, (h.2.2.1 vs2 rfl).1, (h.2.2.2 os2 rfl).1⟩

/-- C10: the consumer dispatch handles a message as a product view exactly
when its topic is product_views or its event_type is product_view, otherwise
as an order exactly when its topic is order_events or its event_type is
order_created, and a message matching neither condition is dropped, leaving
the store unchanged. -/
theorem C10_dispatch_rules (topic etype : String) (now : Int) (m : Message)
    (s : Store) :
    (dispatch topic etype = .view ↔
      (topic = "product_views" ∨ etype = "product_view")) ∧
    (dispatch topic etype = .order ↔
      (¬(topic = "product_views" ∨ etype = "product_view") ∧
        (topic = "order_events" ∨ etype = "order_created"))) ∧
    (dispatch m.topic (m.value.event_type.getD "") = .drop →
      processMessage now m s = s) := by
  refine ⟨?_, ?_, ?_⟩
  · unfold dispatch
    by_cases h1 : topic = "product_views" <;>
      by_cases h2 : etype = "product_view" <;>
        by_cases h3 : topic = "order_events" <;>
          by_cases h4 : etype = "order_created" <;>
            simp [h1, h2, h3, h4]
  · unfold dispatch
    by_cases h1 : topic = "product_views" <;>
      by_cases h2 : etype = "product_view" <;>
        by_cases h3 : topic = "order_events" <;>
          by_cases h4 : etype = "order_created" <;>
            simp [h1, h2, h3, h4]
  · intro h
    unfold processMessage
    rw [h]

theorem C10_witness :
    dispatch "product_views" "" = HandlerChoice.view ∧
    dispatch "unknown_topic" "order_created" = HandlerChoice.order ∧
    processMessage 5 { topic := "unknown_topic", value := emptyDict } store0
      = store0 := by
  have h1 := C10_dispatch_rules "product_views" "" 5
    { topic := "unknown_topic", value := emptyDict } store0
  have h2 := C10_dispatch_rules "unknown_topic" "order_created" 5
    { topic := "unknown_topic", value := emptyDict } store0
  exact ⟨h1.1.mpr (Or.inl rfl),
    h2.2.1.mpr ⟨by decide, Or.inr rfl⟩,
    h1.2.2 (by decide)⟩

end TgFlowers
